import Mathlib

/-!
Shallow embedding of the multiplayer snake server (`server.js`).

Coordinates are pixel coordinates (multiples of `BOX`), as in the source.
All randomness (`Math.random`, `Date.now`) is abstracted into an `Env`
oracle: `spawnFood k` is the result of the `k`-th `spawnFood()` call of the
current tick, `freeCell k` the result of the `k`-th `randomFreeCell()` call
made by `addObstacle`/`resetSnake`, and `now` is `Date.now()`.

JS object iteration (`for (const id in snakes)`) follows insertion order for
string keys, so the snake registry is modelled as a list in insertion order
with pairwise-distinct ids.
-/

namespace SnakeGame

/-- Game constants from `server.js`. -/
def CANVAS_W : Int := 400

def CANVAS_H : Int := 400

def BOX : Int := 20

def ROWS : Int := CANVAS_H / BOX

def COLS : Int := CANVAS_W / BOX

def START_SPEED_MS : Int := 100

def MIN_SPEED_MS : Int := 50

/-- A pixel position `{x, y}`. -/
structure Pos where
  x : Int
  y : Int
deriving DecidableEq, Repr

instance : Inhabited Pos := ⟨⟨0, 0⟩⟩

/-- `posEq(a, b)` from the source. -/
def posEq (a b : Pos) : Bool :=
  a.x == b.x && a.y == b.y

/-- `collideArray(p, arr)`: `arr.some(seg => posEq(seg, p))`. -/
def collideArray (p : Pos) (arr : List Pos) : Bool :=
  arr.any (fun seg => posEq seg p)

/-- `collideWalls(p)`. -/
def collideWalls (p : Pos) : Bool :=
  decide (p.x < 0) || decide (p.y < 0) ||
    decide (CANVAS_W ≤ p.x) || decide (CANVAS_H ≤ p.y)

/-- `isOpposite(a, b)` from the source. -/
def isOpposite (a b : String) : Bool :=
  (a == "UP" && b == "DOWN") ||
  (a == "DOWN" && b == "UP") ||
  (a == "LEFT" && b == "RIGHT") ||
  (a == "RIGHT" && b == "LEFT")

/-- `nextHead(head, dir)`: four successive guarded translations, as written
in the source (a non-direction string leaves the head unchanged). -/
def nextHead (head : Pos) (dir : String) : Pos :=
  let x := head.x
  let y := head.y
  let x := if dir == "LEFT" then x - BOX else x
  let x := if dir == "RIGHT" then x + BOX else x
  let y := if dir == "UP" then y - BOX else y
  let y := if dir == "DOWN" then y + BOX else y
  ⟨x, y⟩

/-- `cellToXY(x, y)`. -/
def cellToXY (cx cy : Int) : Pos :=
  ⟨cx * BOX, cy * BOX⟩

/-- `COLORS` palette. -/
def COLORS : List String :=
  ["#22c55e", "#3b82f6", "#eab308", "#ef4444", "#a855f7", "#14b8a6"]

/-- `startPosForNewSnake(index)` (`Math.floor(COLS / 2)` is exact integer
division here since `COLS = 20`). -/
def startPosForNewSnake (index : Nat) : Pos :=
  let spots : List Pos :=
    [cellToXY 2 2, cellToXY (COLS - 3) (ROWS - 3), cellToXY 2 (ROWS - 3),
     cellToXY (COLS - 3) 2, cellToXY (COLS / 2) 2, cellToXY (COLS / 2) (ROWS - 3)]
  spots.getD (index % spots.length) ⟨0, 0⟩

/-- One entry of the `FOOD_TYPES` table.  Weights are exact rationals
standing for the source's float literals. -/
structure FoodTypeSpec where
  type : String
  color : String
  score : Int
  weight : ℚ
  lifetimeMs : Option Int
deriving DecidableEq, Repr

instance : Inhabited FoodTypeSpec := ⟨⟨"normal", "red", 1, 7/10, none⟩⟩

/-- The `FOOD_TYPES` table. -/
def FOOD_TYPES : List FoodTypeSpec :=
  [⟨"normal", "red", 1, 7/10, none⟩,
   ⟨"golden", "yellow", 3, 2/10, some 5000⟩,
   ⟨"poison", "purple", -2, 1/10, none⟩]

/-- The accumulation loop of `weightedFoodType`: walks the table keeping the
running weight sum `acc`, returning the first entry with `r < acc`. -/
def weightedGo (r : ℚ) (acc : ℚ) : List FoodTypeSpec → Option FoodTypeSpec
  | [] => none
  | ft :: rest =>
    let acc2 := acc + ft.weight
    if r < acc2 then some ft else weightedGo r acc2 rest

/-- `weightedFoodType()` with the random draw `r` made explicit.  When the
loop falls through, the source returns `FOOD_TYPES[0]` (the first entry). -/
def weightedFoodType (r : ℚ) : FoodTypeSpec :=
  match weightedGo r 0 FOOD_TYPES with
  | some ft => ft
  | none => FOOD_TYPES.headI

/-- A live food item `{x, y, type, color, score, expiresAt?}`. -/
structure Food where
  x : Int
  y : Int
  type : String
  color : String
  score : Int
  expiresAt : Option Int
deriving DecidableEq, Repr

/-- A snake registry entry.  `name` is absent until a `newPlayer` event. -/
structure Snake where
  id : String
  color : String
  body : List Pos
  dir : String
  pendingDir : String
  score : Int
  extraGrowth : Int
  milestone : Int
  name : Option String
deriving DecidableEq, Repr

/-- The mutable world state of the server. -/
structure World where
  snakes : List Snake
  obstacles : List Pos
  food : Option Food
  speedMs : Int
deriving DecidableEq, Repr

/-- Oracle for the nondeterministic inputs of one operation. -/
structure Env where
  now : Int
  spawnFood : Nat → Food
  freeCell : Nat → Pos

/-- In-place field update of the registry entry with the given id
(`snakes[id].field = ...`). -/
def updateSnake (id : String) (f : Snake → Snake) (l : List Snake) : List Snake :=
  l.map (fun s => if s.id == id then f s else s)

/-- Registry lookup `snakes[id]`. -/
def findSnake (l : List Snake) (id : String) : Option Snake :=
  l.find? (fun s => s.id == id)

/-- Step 1 of `tick`: commit the pending direction unless it is the opposite
of the current one. -/
def commitDir (s : Snake) : Snake :=
  if isOpposite s.dir s.pendingDir then s else { s with dir := s.pendingDir }

/-- Step 2 of `tick`: every snake's candidate next head, keyed by id,
computed from the pre-move heads (`newHeads`). -/
def candHeads (snakes : List Snake) : List (String × Pos) :=
  snakes.map (fun s => (s.id, nextHead s.body.headI s.dir))

/-- `newHeads[id]` lookup. -/
def getHead (heads : List (String × Pos)) (id : String) : Pos :=
  ((heads.find? (fun e => e.1 == id)).map (fun e => e.2)).getD ⟨0, 0⟩

/-- The distinct candidate-head cells in order of first occurrence — the key
iteration order of the `headCells` object. -/
def distinctCells (seen : List Pos) : List (String × Pos) → List Pos
  | [] => []
  | e :: rest =>
    if e.2 ∈ seen then distinctCells seen rest
    else e.2 :: distinctCells (e.2 :: seen) rest

/-- `headCells[key]`: ids of the snakes whose candidate head is the cell
`c`, in registry order. -/
def groupIds (hs : List (String × Pos)) (c : Pos) : List String :=
  (hs.filter (fun e => posEq e.2 c)).map (fun e => e.1)

/-- Step 3 of `tick`: the initial `resetIds` — every snake whose candidate
head cell is shared by at least two snakes, grouped by cell in key order. -/
def headToHeadResets (hs : List (String × Pos)) : List String :=
  ((distinctCells [] hs).map
    (fun c => if (groupIds hs c).length > 1 then groupIds hs c else [])).flatten

/-- Mutable state threaded through the per-snake resolution loop of `tick`.
`resetIds` keeps `Set` insertion order; `spawnIdx`/`cellIdx` index the
oracle streams. -/
structure TickSt where
  snakes : List Snake
  obstacles : List Pos
  food : Option Food
  speedMs : Int
  resetIds : List String
  spawnIdx : Nat
  cellIdx : Nat
deriving Repr

/-- The food-effects block of `tick`, applied to the snake after the head
was unshifted (`s.body[0]` is the new head).  On poison the score is added
then clamped at 0 and up to two tail segments are popped, each pop guarded
by `body.length > 1`. -/
def applyFood (s : Snake) (f : Food) : Snake :=
  if f.type == "normal" then
    { s with score := s.score + f.score }
  else if f.type == "golden" then
    { s with score := s.score + f.score, extraGrowth := s.extraGrowth + 2 }
  else if f.type == "poison" then
    let sc := s.score + f.score
    let sc := if sc < 0 then 0 else sc
    let b := s.body
    let b := if b.length > 1 then b.dropLast else b
    let b := if b.length > 1 then b.dropLast else b
    { s with score := sc, body := b }
  else s

/-- The milestone fire condition: `s.score > 0 && Math.floor(s.score / 5) >
s.milestone`. -/
def milestoneFires (s : Snake) : Bool :=
  decide (0 < s.score) && decide (s.milestone < Int.fdiv s.score 5)

/-- The milestone block of `tick`: when it fires, record the new milestone,
append one obstacle (at `p`, the `addObstacle` free cell), and lower the
shared speed by 10 ms floored at `MIN_SPEED_MS`. -/
def milestoneUpd (s : Snake) (obs : List Pos) (sp : Int) (p : Pos) :
    Snake × List Pos × Int :=
  if milestoneFires s then
    ({ s with milestone := Int.fdiv s.score 5 }, obs ++ [p],
     max MIN_SPEED_MS (sp - 10))
  else (s, obs, sp)

/-- The food-consumption check of the per-snake loop: when the (current)
food exists and the new head is on it, apply the food effect and respawn;
the result is `(updated snake, food, spawn counter, ate)`. -/
def eatStep (env : Env) (st : TickSt) (s1 : Snake) (head : Pos) :
    Snake × Option Food × Nat × Bool :=
  match st.food with
  | some f =>
    if posEq head ⟨f.x, f.y⟩ then
      (applyFood s1 f, some (env.spawnFood st.spawnIdx), st.spawnIdx + 1, true)
    else (s1, st.food, st.spawnIdx, false)
  | none => (s1, st.food, st.spawnIdx, false)

/-- The tail logic: no pop when the snake just ate; otherwise consume one
unit of pending extra growth, or pop the tail. -/
def tailStep (s2 : Snake) (ate : Bool) : Snake :=
  if ate then s2
  else if 0 < s2.extraGrowth then { s2 with extraGrowth := s2.extraGrowth - 1 }
  else { s2 with body := s2.body.dropLast }

/-- The survivor path of the per-snake loop: unshift the candidate head,
apply food effects and respawn food on a hit, run the tail logic, then the
milestone block. -/
def moveSnake (env : Env) (st : TickSt) (id : String) (s : Snake) (head : Pos) :
    TickSt :=
  let s1 : Snake := { s with body := head :: s.body }
  let r := eatStep env st s1 head
  let s3 := tailStep r.1 r.2.2.2
  let m := milestoneUpd s3 st.obstacles st.speedMs (env.freeCell st.cellIdx)
  let cellIdx4 := if milestoneFires s3 then st.cellIdx + 1 else st.cellIdx
  { st with
    snakes := updateSnake id (fun _ => m.1) st.snakes,
    obstacles := m.2.1, speedMs := m.2.2,
    food := r.2.1, spawnIdx := r.2.2.1, cellIdx := cellIdx4 }

/-- Step 4 of `tick` for one snake: skip it if already marked, then check
walls, obstacles, and every snake's body *as it currently stands in the
loop* (`other.body.slice(0)` for self is a copy with the same contents);
a hit appends the id to `resetIds`, otherwise the move is committed. -/
def snakeStep (env : Env) (heads : List (String × Pos)) (st : TickSt)
    (id : String) : TickSt :=
  if st.resetIds.contains id then st
  else
    match findSnake st.snakes id with
    | none => st
    | some s =>
      let head := getHead heads id
      if collideWalls head then
        { st with resetIds := st.resetIds ++ [id] }
      else if collideArray head st.obstacles then
        { st with resetIds := st.resetIds ++ [id] }
      else if st.snakes.any (fun other => collideArray head other.body) then
        { st with resetIds := st.resetIds ++ [id] }
      else moveSnake env st id s head

/-- `resetSnake(id)`: a fresh single-segment body at the next free cell
(the `|| startPosForNewSnake(idx)` fallback in the source is dead code
because `randomFreeCell` always returns a truthy object). -/
def resetSnakeSt (env : Env) (st : TickSt) (id : String) : TickSt :=
  let pos := env.freeCell st.cellIdx
  { st with
    snakes :=
      updateSnake id
        (fun s => { s with body := [pos], dir := "RIGHT", pendingDir := "RIGHT",
                           extraGrowth := 0, score := 0, milestone := 0 })
        st.snakes,
    cellIdx := st.cellIdx + 1 }

/-- The golden-food timeout check at the top of `tick` (`food.expiresAt &&
Date.now() > food.expiresAt`, with JS truthiness of a zero timestamp);
returns the food afterwards and how many `spawnFood` calls were made. -/
def expiryCheck (env : Env) (w : World) : Option Food × Nat :=
  match w.food with
  | some f =>
    if f.type == "golden" &&
        (match f.expiresAt with
         | some e => !(e == 0) && decide (e < env.now)
         | none => false) then
      (some (env.spawnFood 0), 1)
    else (some f, 0)
  | none => (none, 0)

/-- The whole `tick` body up to (not including) the broadcast, returning the
loop state so that `resetIds` stays observable. -/
def tickAux (env : Env) (w : World) : TickSt :=
  let e := expiryCheck env w
  let snakes2 := w.snakes.map commitDir
  let heads := candHeads snakes2
  let st0 : TickSt :=
    { snakes := snakes2, obstacles := w.obstacles, food := e.1,
      speedMs := w.speedMs, resetIds := headToHeadResets heads,
      spawnIdx := e.2, cellIdx := 0 }
  let st1 := (snakes2.map (fun s => s.id)).foldl (snakeStep env heads) st0
  st1.resetIds.foldl (resetSnakeSt env) st1

/-- `tick()`: the new world after one simulation step. -/
def tick (env : Env) (w : World) : World :=
  let st := tickAux env w
  { snakes := st.snakes, obstacles := st.obstacles, food := st.food,
    speedMs := st.speedMs }

/-- `createSnake(id)` on a fresh connection id. -/
def createSnake (id : String) (w : World) : World :=
  let index := w.snakes.length
  let color := COLORS.getD (index % COLORS.length) ""
  let pos := startPosForNewSnake index
  { w with snakes := w.snakes ++
      [{ id := id, color := color, body := [pos], dir := "RIGHT",
         pendingDir := "RIGHT", score := 0, extraGrowth := 0, milestone := 0,
         name := none }] }

/-- The connection handler: create the snake, then spawn food if missing
(`f` is the oracled `spawnFood()` result). -/
def connectHandler (id : String) (f : Food) (w : World) : World :=
  match (createSnake id w).food with
  | none => { createSnake id w with food := some f }
  | some _ => createSnake id w

/-- The `newPlayer` handler: spread-copy the entry and overwrite only
`name` (with the id when the sent name is falsy).  Modelled for ids present
in the registry, which the connection handler guarantees. -/
def renamePlayer (id nm : String) (w : World) : World :=
  { w with
    snakes :=
      updateSnake id
        (fun s => { s with name := some (if nm == "" then id else nm) })
        w.snakes }

/-- The `move` handler: store the raw string as the pending direction, with
no validation (missing ids are ignored). -/
def moveHandler (id dir : String) (w : World) : World :=
  { w with snakes := updateSnake id (fun s => { s with pendingDir := dir }) w.snakes }

/-- The `disconnect` handler: delete the snake; when the registry empties,
clear obstacles and food and restore the starting speed. -/
def disconnectHandler (id : String) (w : World) : World :=
  if (w.snakes.filter (fun s => !(s.id == id))).length == 0 then
    { snakes := w.snakes.filter (fun s => !(s.id == id)), obstacles := [],
      food := none, speedMs := START_SPEED_MS }
  else { w with snakes := w.snakes.filter (fun s => !(s.id == id)) }

/-- One externally triggered operation on the world. -/
inductive Op where
  | tickOp (env : Env)
  | connect (id : String) (f : Food)
  | disconn (id : String)
  | moveOp (id dir : String)
  | rename (id nm : String)

/-- Dispatch an operation. -/
def applyOp : Op → World → World
  | .tickOp env, w => tick env w
  | .connect id f, w => connectHandler id f w
  | .disconn id, w => disconnectHandler id w
  | .moveOp id d, w => moveHandler id d w
  | .rename id n, w => renamePlayer id n w

/-- A snake's simulation state: every field except the display name. -/
def simState (s : Snake) :
    String × String × List Pos × String × String × Int × Int × Int :=
  (s.id, s.color, s.body, s.dir, s.pendingDir, s.score, s.extraGrowth, s.milestone)

/-! ### Basic lemmas about the committed direction -/

lemma commitDir_id (s : Snake) : (commitDir s).id = s.id := by
  unfold commitDir; split <;> rfl

lemma commitDir_body (s : Snake) : (commitDir s).body = s.body := by
  unfold commitDir; split <;> rfl

/-- C7: at the direction-commit step, an opposite pending heading is
silently dropped (the heading stays) while any other pending heading is
committed, and `isOpposite` is exactly the fixed pairing UP/DOWN,
LEFT/RIGHT. -/
theorem C7_opposite_drop (s : Snake) (a b : String) :
    (commitDir s).dir =
      (if isOpposite s.dir s.pendingDir then s.dir else s.pendingDir) ∧
    (isOpposite a b = true ↔
      (a = "UP" ∧ b = "DOWN") ∨ (a = "DOWN" ∧ b = "UP") ∨
      (a = "LEFT" ∧ b = "RIGHT") ∨ (a = "RIGHT" ∧ b = "LEFT")) := by
  constructor
  · unfold commitDir; split <;> rfl
  · unfold isOpposite
    simp only [Bool.or_eq_true, Bool.and_eq_true, beq_iff_eq]
    tauto

/-! ### C8: a rename touches only the display name -/

lemma simState_rename (id nm : String) (s : Snake) :
    simState (if s.id == id
      then { s with name := some (if nm == "" then id else nm) } else s) =
      simState s := by
  split <;> rfl

lemma filter_updateSnake_ne (id : String) (f : Snake → Snake)
    (hf : ∀ t, (f t).id = t.id) (l : List Snake) :
    (updateSnake id f l).filter (fun s => !(s.id == id)) =
      l.filter (fun s => !(s.id == id)) := by
  induction l with
  | nil => rfl
  | cons t ts ih =>
    simp only [updateSnake, List.map_cons, List.filter_cons, beq_iff_eq]
      at ih ⊢
    by_cases ht : t.id = id
    · have h2 : (f t).id = id := by rw [hf t, ht]
      simp [ht, h2, ih]
    · simp [ht, ih]

/-- C8: a `newPlayer` (rename) event changes nothing but the display name:
every snake's simulation state (id, color, body, headings, score, growth,
milestone) is unchanged, snakes with a different id are untouched entirely,
and food, obstacles and the tick interval are unchanged. -/
theorem C8_rename_frame (w : World) (id nm : String) :
    (renamePlayer id nm w).snakes.map simState = w.snakes.map simState ∧
    (renamePlayer id nm w).snakes.filter (fun s => !(s.id == id)) =
      w.snakes.filter (fun s => !(s.id == id)) ∧
    (renamePlayer id nm w).obstacles = w.obstacles ∧
    (renamePlayer id nm w).food = w.food ∧
    (renamePlayer id nm w).speedMs = w.speedMs := by
  refine ⟨?_, ?_, rfl, rfl, rfl⟩
  · simp only [renamePlayer, updateSnake, List.map_map]
    exact List.map_congr_left (fun s _ => simState_rename id nm s)
  · simp only [renamePlayer]
    exact filter_updateSnake_ne id
      (fun s => { s with name := some (if nm == "" then id else nm) })
      (fun t => rfl) w.snakes

/-! ### C3: milestone escalation -/

/-- Template snake for concrete milestone checks. -/
def mkScore (sc m : Int) : Snake :=
  ⟨"", "", [], "", "", sc, 0, m, none⟩

/-- C3: the milestone block fires exactly when the score is positive and
`floor(score / 5)` strictly exceeds the recorded milestone; firing records
the new milestone, appends exactly one obstacle, and lowers the shared tick
interval by 10 ms floored at `MIN_SPEED_MS`; with the game's +1 scoring it
fires at scores 5 and 10 and not at 6, 7, 8, 9. -/
theorem C3_milestone (s : Snake) (obs : List Pos) (sp : Int) (p : Pos) :
    (milestoneFires s = true ↔ 0 < s.score ∧ s.milestone < Int.fdiv s.score 5) ∧
    (milestoneFires s = true →
      milestoneUpd s obs sp p =
        ({ s with milestone := Int.fdiv s.score 5 }, obs ++ [p],
         max MIN_SPEED_MS (sp - 10))) ∧
    (milestoneFires s = false → milestoneUpd s obs sp p = (s, obs, sp)) ∧
    milestoneFires (mkScore 5 0) = true ∧
    milestoneFires (mkScore 6 1) = false ∧
    milestoneFires (mkScore 7 1) = false ∧
    milestoneFires (mkScore 8 1) = false ∧
    milestoneFires (mkScore 9 1) = false ∧
    milestoneFires (mkScore 10 1) = true := by
  refine ⟨?_, ?_, ?_, by decide, by decide, by decide, by decide, by decide,
    by decide⟩
  · simp [milestoneFires]
  · intro h; simp [milestoneUpd, h]
  · intro h; simp [milestoneUpd, h]

/-- Witness for C3 at a concrete snake reaching score 5. -/
theorem C3_milestone_witness :
    milestoneUpd (mkScore 5 0) [] 100 ⟨0, 0⟩ =
      ({ mkScore 5 0 with milestone := 1 }, [(⟨0, 0⟩ : Pos)], 90) := by
  have h := (C3_milestone (mkScore 5 0) [] 100 ⟨0, 0⟩).2.1 (by decide)
  rw [h]; decide

/-! ### C5: weighted food-type selection -/

lemma weightedGo_eval (r : ℚ) :
    weightedGo r 0 FOOD_TYPES =
      (if r < 7/10 then some ⟨"normal", "red", 1, 7/10, none⟩
       else if r < 9/10 then some ⟨"golden", "yellow", 3, 2/10, some 5000⟩
       else if r < 1 then some ⟨"poison", "purple", -2, 1/10, none⟩
       else none) := by
  simp only [FOOD_TYPES, weightedGo]
  norm_num

/-- C5 counterexample: on a fall-through draw (no cumulative range
matched, the floating-point edge case) the source returns `FOOD_TYPES[0]`,
the FIRST configured type ("normal"), not the last one ("poison"). -/
theorem C5_counterexample :
    weightedGo 1 0 FOOD_TYPES = none ∧
    (weightedFoodType 1).type = "normal" ∧
    (FOOD_TYPES.getLastD default).type = "poison" ∧
    (weightedFoodType 1).type ≠ (FOOD_TYPES.getLastD default).type := by
  have hgo : weightedGo 1 0 FOOD_TYPES = none := by
    rw [weightedGo_eval]; norm_num
  have hft : weightedFoodType 1 = FOOD_TYPES.headI := by
    unfold weightedFoodType; rw [hgo]
  refine ⟨hgo, ?_, rfl, ?_⟩ <;> rw [hft] <;> decide

/-- C5 amended: `weightedFoodType` selects by cumulative weight over
inclusive-exclusive accumulated ranges ([0, 0.7) normal, [0.7, 0.9) golden,
[0.9, 1) poison), and on a fall-through draw the fallback is the FIRST
configured type. -/
theorem C5_amended_fallback (r : ℚ) :
    (r < 7/10 → weightedFoodType r = ⟨"normal", "red", 1, 7/10, none⟩) ∧
    (7/10 ≤ r → r < 9/10 →
      weightedFoodType r = ⟨"golden", "yellow", 3, 2/10, some 5000⟩) ∧
    (9/10 ≤ r → r < 1 →
      weightedFoodType r = ⟨"poison", "purple", -2, 1/10, none⟩) ∧
    (1 ≤ r → weightedFoodType r = FOOD_TYPES.headI) := by
  have e := weightedGo_eval r
  refine ⟨fun h1 => ?_, fun h1 h2 => ?_, fun h1 h2 => ?_, fun h1 => ?_⟩ <;>
    unfold weightedFoodType <;> rw [e]
  · rw [if_pos h1]
  · rw [if_neg (by linarith), if_pos h2]
  · rw [if_neg (by linarith), if_neg (by linarith), if_pos h2]
  · rw [if_neg (by linarith), if_neg (by linarith), if_neg (by linarith)]

/-- Witness for C5 at the concrete draws 1/2 (normal range) and 1
(fall-through). -/
theorem C5_amended_fallback_witness :
    weightedFoodType (1/2) = ⟨"normal", "red", 1, 7/10, none⟩ ∧
    weightedFoodType 1 = FOOD_TYPES.headI := by
  exact ⟨(C5_amended_fallback (1/2)).1 (by norm_num),
    (C5_amended_fallback 1).2.2.2 (by norm_num)⟩

/-! ### C2: body length never drops below 1 -/

/-- Every snake in the list has a nonempty body. -/
def AllAlive (l : List Snake) : Prop := ∀ s ∈ l, 1 ≤ s.body.length

lemma allAlive_updateSnake {id : String} {f : Snake → Snake} {l : List Snake}
    (h : AllAlive l) (hf : ∀ t ∈ l, 1 ≤ (f t).body.length) :
    AllAlive (updateSnake id f l) := by
  intro s hs
  rcases List.mem_map.1 hs with ⟨t, htl, rfl⟩
  split
  · exact hf t htl
  · exact h t htl

lemma findSnake_mem {l : List Snake} {id : String} {s : Snake}
    (h : findSnake l id = some s) : s ∈ l :=
  List.mem_of_find?_eq_some h

lemma milestoneUpd_fst_body (s : Snake) (obs : List Pos) (sp : Int) (p : Pos) :
    (milestoneUpd s obs sp p).1.body = s.body := by
  unfold milestoneUpd; split <;> rfl

lemma applyFood_poison (t : Snake) (f : Food) (hf : f.type = "poison")
    (ht : 1 ≤ t.body.length) :
    (applyFood t f).score = max 0 (t.score + f.score) ∧
    (applyFood t f).body.length = max (t.body.length - 2) 1 := by
  unfold applyFood
  rw [hf, if_neg (by decide : ¬((("poison" : String) == "normal") = true)),
      if_neg (by decide : ¬((("poison" : String) == "golden") = true)),
      if_pos (by decide : ((("poison" : String) == "poison") = true))]
  constructor
  · dsimp only
    omega
  · dsimp only
    by_cases h1 : 1 < t.body.length
    · simp only [gt_iff_lt, if_pos h1, List.length_dropLast]
      by_cases h2 : 1 < t.body.length - 1
      · simp only [if_pos h2, List.length_dropLast]
        omega
      · simp only [if_neg h2]
        simp only [List.length_dropLast]
        omega
    · simp only [gt_iff_lt, if_neg h1]
      omega

lemma applyFood_length (t : Snake) (f : Food) (ht : 1 ≤ t.body.length) :
    1 ≤ (applyFood t f).body.length := by
  by_cases h1 : f.type = "poison"
  · have h2 := (applyFood_poison t f h1 ht).2
    omega
  · have hb : (applyFood t f).body = t.body := by
      unfold applyFood
      split_ifs with g1 g2 g3
      · rfl
      · rfl
      · exact absurd (eq_of_beq g3) h1
      · rfl
    rw [hb]; exact ht

/-- The possible shapes of one `eatStep` outcome. -/
lemma eatStep_spec (env : Env) (st : TickSt) (s1 : Snake) (head : Pos) :
    (∃ f, st.food = some f ∧
      eatStep env st s1 head =
        (applyFood s1 f, some (env.spawnFood st.spawnIdx), st.spawnIdx + 1,
         true)) ∨
    eatStep env st s1 head = (s1, st.food, st.spawnIdx, false) := by
  unfold eatStep
  cases hfd : st.food with
  | none => right; rfl
  | some f =>
    dsimp only
    by_cases hpe : posEq head ⟨f.x, f.y⟩ = true
    · left; exact ⟨f, rfl, by rw [if_pos hpe]⟩
    · right; rw [if_neg hpe]

lemma moveSnake_allAlive (env : Env) (st : TickSt) (id : String) (s : Snake)
    (head : Pos) (h : AllAlive st.snakes) (hs : 1 ≤ s.body.length) :
    AllAlive (moveSnake env st id s head).snakes := by
  have hlen : ∀ t : Snake, 1 ≤
      ((milestoneUpd
        (tailStep (eatStep env st { s with body := head :: s.body } head).1
          (eatStep env st { s with body := head :: s.body } head).2.2.2)
        st.obstacles st.speedMs (env.freeCell st.cellIdx)).1).body.length := by
    intro t
    rw [milestoneUpd_fst_body]
    have h1 : ({ s with body := head :: s.body } : Snake).body.length =
        s.body.length + 1 := by simp
    rcases eatStep_spec env st { s with body := head :: s.body } head with
      ⟨f, hfd, heq⟩ | heq <;> rw [heq]
    · simp only [tailStep, if_pos rfl]
      exact applyFood_length _ f (by omega)
    · simp only [tailStep]
      norm_num
      split_ifs <;> simp [List.length_dropLast] <;> omega

  exact allAlive_updateSnake h (fun t ht => hlen t)

lemma snakeStep_allAlive (env : Env) (heads : List (String × Pos))
    (st : TickSt) (id : String) (h : AllAlive st.snakes) :
    AllAlive (snakeStep env heads st id).snakes := by
  unfold snakeStep
  by_cases hc : st.resetIds.contains id = true
  · rw [if_pos hc]; exact h
  · rw [if_neg hc]
    cases hfind : findSnake st.snakes id with
    | none => exact h
    | some s =>
      dsimp only
      split_ifs
      · exact h
      · exact h
      · exact h
      · exact moveSnake_allAlive env st id s (getHead heads id) h
          (h s (findSnake_mem hfind))

lemma foldl_snakeStep_allAlive (env : Env) (heads : List (String × Pos))
    (ids : List String) (st : TickSt) (h : AllAlive st.snakes) :
    AllAlive ((ids.foldl (snakeStep env heads) st).snakes) := by
  induction ids generalizing st with
  | nil => exact h
  | cons i is ih => exact ih _ (snakeStep_allAlive env heads st i h)

lemma resetSnakeSt_allAlive (env : Env) (st : TickSt) (id : String)
    (h : AllAlive st.snakes) : AllAlive (resetSnakeSt env st id).snakes :=
  allAlive_updateSnake h (fun t ht => by simp)

lemma foldl_resetSnakeSt_allAlive (env : Env) (ids : List String)
    (st : TickSt) (h : AllAlive st.snakes) :
    AllAlive ((ids.foldl (resetSnakeSt env) st).snakes) := by
  induction ids generalizing st with
  | nil => exact h
  | cons i is ih => exact ih _ (resetSnakeSt_allAlive env st i h)

/-- C2: a tick keeps every body nonempty, and the poison effect first adds
the (negative) score delta then clamps the score at 0, and pops at most two
tail segments, never leaving fewer than one segment — even from pre-event
body lengths 1 or 2. -/
theorem C2_body_length (env : Env) (w : World)
    (h : ∀ s ∈ w.snakes, 1 ≤ s.body.length) :
    (∀ s ∈ (tick env w).snakes, 1 ≤ s.body.length) ∧
    (∀ (t : Snake) (f : Food), f.type = "poison" → 1 ≤ t.body.length →
      (applyFood t f).score = max 0 (t.score + f.score) ∧
      (applyFood t f).body.length = max (t.body.length - 2) 1) := by
  constructor
  · have h0 : AllAlive (w.snakes.map commitDir) := by
      intro s hs
      rcases List.mem_map.1 hs with ⟨t, ht, rfl⟩
      rw [commitDir_body]
      exact h t ht
    exact foldl_resetSnakeSt_allAlive env _ _
      (foldl_snakeStep_allAlive env _ _ _ h0)
  · exact fun t f hf ht => applyFood_poison t f hf ht

/-! ### C4: head-to-head collision marking -/

lemma posEq_iff (a b : Pos) : posEq a b = true ↔ a = b := by
  cases a; cases b
  simp [posEq, Pos.mk.injEq]

lemma mem_groupIds {hs : List (String × Pos)} {c : Pos} {id : String} :
    id ∈ groupIds hs c ↔ (id, c) ∈ hs := by
  unfold groupIds
  constructor
  · intro h
    rcases List.mem_map.1 h with ⟨⟨eid, ep⟩, he, rfl⟩
    rcases List.mem_filter.1 he with ⟨he1, he2⟩
    obtain rfl : ep = c := (posEq_iff ep c).1 he2
    exact he1
  · intro h
    exact List.mem_map.2
      ⟨(id, c), List.mem_filter.2 ⟨h, (posEq_iff c c).2 rfl⟩, rfl⟩

lemma mem_distinctCells (hs : List (String × Pos)) (c : Pos) :
    ∀ seen : List Pos,
      (c ∈ distinctCells seen hs ↔ (∃ e ∈ hs, e.2 = c) ∧ c ∉ seen) := by
  induction hs with
  | nil => intro seen; simp [distinctCells]
  | cons e rest ih =>
    intro seen
    by_cases he : e.2 ∈ seen
    · rw [show distinctCells seen (e :: rest) = distinctCells seen rest from
        by simp only [distinctCells, if_pos he], ih seen]
      simp only [List.mem_cons]
      constructor
      · rintro ⟨⟨t, ht, htc⟩, hcs⟩
        exact ⟨⟨t, Or.inr ht, htc⟩, hcs⟩
      · rintro ⟨⟨t, ht, htc⟩, hcs⟩
        rcases ht with rfl | ht
        · exact absurd (htc ▸ he) hcs
        · exact ⟨⟨t, ht, htc⟩, hcs⟩
    · rw [show distinctCells seen (e :: rest) =
          e.2 :: distinctCells (e.2 :: seen) rest from
        by simp only [distinctCells, if_neg he]]
      simp only [List.mem_cons, ih (e.2 :: seen)]
      constructor
      · rintro (rfl | ⟨⟨t, ht, htc⟩, hcs⟩)
        · exact ⟨⟨e, Or.inl rfl, rfl⟩, he⟩
        · exact ⟨⟨t, Or.inr ht, htc⟩, fun hc => hcs (Or.inr hc)⟩
      · rintro ⟨⟨t, ht, htc⟩, hcs⟩
        rcases ht with rfl | ht
        · left; exact htc.symm
        · by_cases hce : c = e.2
          · left; exact hce
          · right
            refine ⟨⟨t, ht, htc⟩, fun hc => ?_⟩
            rcases hc with h1 | h1
            · exact hce h1
            · exact hcs h1

lemma mem_headToHeadResets {hs : List (String × Pos)} {id : String} :
    id ∈ headToHeadResets hs ↔
      ∃ c, c ∈ distinctCells [] hs ∧ (groupIds hs c).length > 1 ∧
        id ∈ groupIds hs c := by
  unfold headToHeadResets
  simp only [List.mem_flatten, List.mem_map]
  constructor
  · rintro ⟨l, ⟨c, hc, rfl⟩, hil⟩
    by_cases hg : (groupIds hs c).length > 1
    · exact ⟨c, hc, hg, by simpa [if_pos hg] using hil⟩
    · rw [if_neg hg] at hil
      cases hil
  · rintro ⟨c, hc, hg, hid⟩
    exact ⟨groupIds hs c, ⟨c, hc, by rw [if_pos hg]⟩, hid⟩

lemma groupIds_nodup {hs : List (String × Pos)}
    (hnd : (hs.map Prod.fst).Nodup) (c : Pos) : (groupIds hs c).Nodup :=
  hnd.sublist ((List.filter_sublist hs).map Prod.fst)

lemma exists_ne_of_one_lt_length {l : List String} (h : l.Nodup)
    (hl : 1 < l.length) (id : String) (hid : id ∈ l) :
    ∃ b ∈ l, b ≠ id := by
  rcases l with _ | ⟨a, rest⟩
  · simp at hl
  rcases rest with _ | ⟨b, t⟩
  · simp at hl
  have hab : a ≠ b := by
    intro hh
    exact (List.nodup_cons.1 h).1 (hh ▸ List.mem_cons_self b t)
  by_cases hia : id = a
  · exact ⟨b, List.mem_cons_of_mem _ (List.mem_cons_self b t),
      fun hh => hab (hia ▸ hh.symm)⟩
  · exact ⟨a, List.mem_cons_self a _, fun hh => hia hh.symm⟩

lemma one_lt_length_of_two_mem {l : List String} {a b : String} (hab : a ≠ b)
    (ha : a ∈ l) (hb : b ∈ l) : 1 < l.length := by
  rcases l with _ | ⟨x, rest⟩
  · simp at ha
  rcases rest with _ | ⟨y, t⟩
  · rw [List.mem_singleton] at ha hb
    exact absurd (ha.trans hb.symm) hab
  · simp only [List.length_cons]
    omega

/-- C4 (head-to-head marking, part 1): with pairwise-distinct snake ids, a
snake is in the head-to-head reset set exactly when some other snake's
candidate head lands on the same cell. -/
lemma headToHead_iff {hs : List (String × Pos)}
    (hnd : (hs.map Prod.fst).Nodup) (id : String) :
    id ∈ headToHeadResets hs ↔
      ∃ p, (id, p) ∈ hs ∧ ∃ id2, id2 ≠ id ∧ (id2, p) ∈ hs := by
  rw [mem_headToHeadResets]
  constructor
  · rintro ⟨c, _, hg, hid⟩
    have hmem : (id, c) ∈ hs := mem_groupIds.1 hid
    obtain ⟨b, hb, hbne⟩ :=
      exists_ne_of_one_lt_length (groupIds_nodup hnd c) hg id hid
    exact ⟨c, hmem, b, hbne, mem_groupIds.1 hb⟩
  · rintro ⟨p, hp, id2, hne, hp2⟩
    refine ⟨p, ?_, ?_, mem_groupIds.2 hp⟩
    · exact (mem_distinctCells hs p []).2 ⟨⟨(id, p), hp, rfl⟩, by simp⟩
    · exact one_lt_length_of_two_mem hne (mem_groupIds.2 hp2)
        (mem_groupIds.2 hp)

/-! ### Reset-set monotonicity through the per-snake loop -/

lemma snakeStep_resetIds_mono (env : Env) (heads : List (String × Pos))
    (st : TickSt) (id x : String) (hx : x ∈ st.resetIds) :
    x ∈ (snakeStep env heads st id).resetIds := by
  unfold snakeStep
  split
  · exact hx
  · split
    · exact hx
    · dsimp only
      split_ifs
      · exact List.mem_append_left _ hx
      · exact List.mem_append_left _ hx
      · exact List.mem_append_left _ hx
      · exact hx

lemma foldl_snakeStep_resetIds_mono (env : Env)
    (heads : List (String × Pos)) (ids : List String) :
    ∀ (st : TickSt) (x : String), x ∈ st.resetIds →
      x ∈ ((ids.foldl (snakeStep env heads) st).resetIds) := by
  induction ids with
  | nil => exact fun st x hx => hx
  | cons i is ih =>
    exact fun st x hx => ih _ x (snakeStep_resetIds_mono env heads st i x hx)

lemma foldl_resetSnakeSt_resetIds (env : Env) (ids : List String) :
    ∀ st : TickSt,
      (ids.foldl (resetSnakeSt env) st).resetIds = st.resetIds := by
  induction ids with
  | nil => exact fun st => rfl
  | cons i is ih => exact fun st => ih (resetSnakeSt env st i)

/-- C4: snakes whose candidate heads collide in the same cell are exactly
those marked by the head-to-head check (tie, no survivor; snakes with an
unshared candidate head cell are not marked by it), and every id the check
marks is in the tick's final reset set. -/
theorem C4_head_to_head (hs : List (String × Pos))
    (hnd : (hs.map Prod.fst).Nodup) (id : String) :
    (id ∈ headToHeadResets hs ↔
      ∃ p, (id, p) ∈ hs ∧ ∃ id2, id2 ≠ id ∧ (id2, p) ∈ hs) ∧
    (∀ (env : Env) (w : World),
      ∀ i ∈ headToHeadResets (candHeads (w.snakes.map commitDir)),
        i ∈ (tickAux env w).resetIds) := by
  refine ⟨headToHead_iff hnd id, fun env w i hi => ?_⟩
  show i ∈ ((((w.snakes.map commitDir).map (fun s => s.id)).foldl
      (snakeStep env (candHeads (w.snakes.map commitDir)))
      { snakes := w.snakes.map commitDir, obstacles := w.obstacles,
        food := (expiryCheck env w).1, speedMs := w.speedMs,
        resetIds := headToHeadResets (candHeads (w.snakes.map commitDir)),
        spawnIdx := (expiryCheck env w).2,
        cellIdx := 0 }).resetIds.foldl (resetSnakeSt env) _).resetIds
  rw [foldl_resetSnakeSt_resetIds]
  exact foldl_snakeStep_resetIds_mono env _ _ _ i hi

/-! ### C1/C10: a candidate head inside the snake's own pre-move body is
fatal -/

lemma applyFood_id (t : Snake) (f : Food) : (applyFood t f).id = t.id := by
  unfold applyFood
  split_ifs <;> rfl

lemma tailStep_id (s2 : Snake) (ate : Bool) : (tailStep s2 ate).id = s2.id := by
  unfold tailStep
  split_ifs <;> rfl

lemma milestoneUpd_fst_id (s : Snake) (obs : List Pos) (sp : Int) (p : Pos) :
    (milestoneUpd s obs sp p).1.id = s.id := by
  unfold milestoneUpd
  split <;> rfl

lemma eatStep_fst_id (env : Env) (st : TickSt) (s1 : Snake) (head : Pos) :
    (eatStep env st s1 head).1.id = s1.id := by
  rcases eatStep_spec env st s1 head with ⟨f, _, heq⟩ | heq
  · rw [heq]; exact applyFood_id s1 f
  · rw [heq]

lemma find?_cons_eq_false {α : Type} (p : α → Bool) (a : α) (l : List α)
    (h : p a = false) : (a :: l).find? p = l.find? p := by
  simp [List.find?_cons, h]

lemma find?_cons_eq_true {α : Type} (p : α → Bool) (a : α) (l : List α)
    (h : p a = true) : (a :: l).find? p = some a := by
  simp [List.find?_cons, h]

lemma findSnake_updateSnake_ne {id sid : String} {f : Snake → Snake}
    (hf : ∀ t, (f t).id = t.id ∨ (f t).id = id) (h : sid ≠ id) :
    ∀ l : List Snake, findSnake (updateSnake id f l) sid = findSnake l sid := by
  intro l
  induction l with
  | nil => rfl
  | cons t ts ih =>
    unfold updateSnake findSnake at ih ⊢
    simp only [List.map_cons]
    by_cases ht : t.id = id
    · have e1 : (if (t.id == id) = true then f t else t) = f t := by simp [ht]
      have hfid : (f t).id = id := by
        rcases hf t with hft | hft
        · rw [hft, ht]
        · exact hft
      have hA : ((f t).id == sid) = false := by
        rw [hfid]; exact beq_eq_false_iff_ne.mpr (fun hh => h hh.symm)
      have hB : (t.id == sid) = false := by
        rw [ht]; exact beq_eq_false_iff_ne.mpr (fun hh => h hh.symm)
      rw [e1, find?_cons_eq_false (fun s => s.id == sid) (f t) _ hA,
        find?_cons_eq_false (fun s => s.id == sid) t _ hB]
      exact ih
    · have e1 : (if (t.id == id) = true then f t else t) = t := by simp [ht]
      rw [e1]
      by_cases hts : t.id = sid
      · rw [find?_cons_eq_true (fun s => s.id == sid) t _
            (beq_iff_eq.mpr hts),
          find?_cons_eq_true (fun s => s.id == sid) t _
            (beq_iff_eq.mpr hts)]
      · rw [find?_cons_eq_false (fun s => s.id == sid) t _
            (beq_eq_false_iff_ne.mpr hts),
          find?_cons_eq_false (fun s => s.id == sid) t _
            (beq_eq_false_iff_ne.mpr hts)]
        exact ih

lemma findSnake_self :
    ∀ {l : List Snake}, (l.map Snake.id).Nodup → ∀ {s : Snake}, s ∈ l →
      findSnake l s.id = some s := by
  intro l
  induction l with
  | nil => intro _ s hs; cases hs
  | cons t ts ih =>
    intro hnd s hs
    rcases List.mem_cons.1 hs with rfl | hs
    · exact find?_cons_eq_true _ _ _ (beq_iff_eq.mpr rfl)
    · have hnd2 : t.id ∉ ts.map Snake.id ∧ (ts.map Snake.id).Nodup :=
        List.nodup_cons.1 (by rw [List.map_cons] at hnd; exact hnd)
      have hne : t.id ≠ s.id := by
        intro hh
        exact hnd2.1 (hh ▸ List.mem_map.2 ⟨s, hs, rfl⟩)
      unfold findSnake
      rw [find?_cons_eq_false (fun x => x.id == s.id) t ts
        (beq_eq_false_iff_ne.mpr hne)]
      exact ih hnd2.2 hs

lemma find?_candHeads {g : Snake → Pos} :
    ∀ {l : List Snake}, (l.map Snake.id).Nodup → ∀ {s : Snake}, s ∈ l →
      (l.map (fun t => (t.id, g t))).find? (fun e => e.1 == s.id) =
        some (s.id, g s) := by
  intro l
  induction l with
  | nil => intro _ s hs; cases hs
  | cons t ts ih =>
    intro hnd s hs
    rcases List.mem_cons.1 hs with rfl | hs
    · simp only [List.map_cons]
      exact find?_cons_eq_true _ _ _ (beq_iff_eq.mpr rfl)
    · have hnd2 : t.id ∉ ts.map Snake.id ∧ (ts.map Snake.id).Nodup :=
        List.nodup_cons.1 (by rw [List.map_cons] at hnd; exact hnd)
      have hne : t.id ≠ s.id := by
        intro hh
        exact hnd2.1 (hh ▸ List.mem_map.2 ⟨s, hs, rfl⟩)
      simp only [List.map_cons]
      rw [find?_cons_eq_false (fun e => e.1 == s.id) (t.id, g t) _
        (beq_eq_false_iff_ne.mpr hne)]
      exact ih hnd2.2 hs

lemma getHead_candHeads {l : List Snake} {s : Snake}
    (hnd : (l.map Snake.id).Nodup) (hs : s ∈ l) :
    getHead (candHeads l) s.id = nextHead s.body.headI s.dir := by
  unfold getHead candHeads
  rw [find?_candHeads hnd hs]
  rfl

lemma map_id_commitDir (l : List Snake) :
    ((l.map commitDir).map Snake.id) = l.map Snake.id := by
  rw [List.map_map]
  exact List.map_congr_left (fun s _ => commitDir_id s)

lemma snakeStep_findSnake_ne (env : Env) (heads : List (String × Pos))
    (st : TickSt) (i sid : String) (h : sid ≠ i) :
    findSnake (snakeStep env heads st i).snakes sid =
      findSnake st.snakes sid := by
  unfold snakeStep
  by_cases hc : st.resetIds.contains i = true
  · rw [if_pos hc]
  · rw [if_neg hc]
    cases hfind : findSnake st.snakes i with
    | none => rfl
    | some s =>
      dsimp only
      split_ifs
      · rfl
      · rfl
      · rfl
      · have hfind2 : st.snakes.find? (fun t => t.id == i) = some s := hfind
        have hsid : s.id = i := by simpa using List.find?_some hfind2
        exact findSnake_updateSnake_ne
          (fun t => Or.inr (by
            rw [milestoneUpd_fst_id, tailStep_id, eatStep_fst_id]
            exact hsid)) h st.snakes

lemma foldl_snakeStep_selfHit (env : Env) (heads : List (String × Pos))
    (sid : String) (sc : Snake)
    (hhit : collideArray (getHead heads sid) sc.body = true) :
    ∀ (ids : List String) (st : TickSt),
      (sid ∈ st.resetIds ∨
        (sid ∈ ids ∧ findSnake st.snakes sid = some sc)) →
      sid ∈ ((ids.foldl (snakeStep env heads) st).resetIds) := by
  intro ids
  induction ids with
  | nil =>
    rintro st (h | ⟨h, _⟩)
    · exact h
    · cases h
  | cons i is ih =>
    rintro st (h | ⟨hmem, hfind⟩)
    · exact ih _ (Or.inl (snakeStep_resetIds_mono env heads st i sid h))
    · by_cases hii : sid = i
      · subst hii
        refine ih _ (Or.inl ?_)
        unfold snakeStep
        by_cases hc : st.resetIds.contains sid = true
        · rw [if_pos hc]
          simpa using hc
        · rw [if_neg hc, hfind]
          dsimp only
          split_ifs with g1 g2 g3
          · exact List.mem_append_right _ (by simp)
          · exact List.mem_append_right _ (by simp)
          · exact List.mem_append_right _ (by simp)
          · exact absurd
              (List.any_eq_true.2 ⟨sc, findSnake_mem hfind, hhit⟩) g3
      · refine ih _ (Or.inr ⟨(List.mem_cons.1 hmem).resolve_left hii, ?_⟩)
        rw [snakeStep_findSnake_ne env heads st i sid hii]
        exact hfind

/-- The key collision fact shared by C1 and C10: a snake whose committed
candidate head lies inside its own pre-move body (the full body, tail
included) ends the tick marked for reset. -/
lemma selfHit_mem_resetIds (env : Env) (w : World) (s : Snake)
    (hnd : (w.snakes.map Snake.id).Nodup) (hs : s ∈ w.snakes)
    (hhit : collideArray
      (nextHead (commitDir s).body.headI (commitDir s).dir)
      (commitDir s).body = true) :
    s.id ∈ (tickAux env w).resetIds := by
  have hnd2 : ((w.snakes.map commitDir).map Snake.id).Nodup := by
    rw [map_id_commitDir]; exact hnd
  have hcs : commitDir s ∈ w.snakes.map commitDir :=
    List.mem_map.2 ⟨s, hs, rfl⟩
  have hfind : findSnake (w.snakes.map commitDir) s.id =
      some (commitDir s) := by
    have h := findSnake_self hnd2 hcs
    rwa [commitDir_id] at h
  have hhead : getHead (candHeads (w.snakes.map commitDir)) s.id =
      nextHead (commitDir s).body.headI (commitDir s).dir := by
    have h := getHead_candHeads hnd2 hcs
    rwa [commitDir_id] at h
  have hmemids : s.id ∈ (w.snakes.map commitDir).map (fun s => s.id) := by
    exact List.mem_map.2 ⟨commitDir s, hcs, commitDir_id s⟩
  show s.id ∈ ((((w.snakes.map commitDir).map (fun s => s.id)).foldl
      (snakeStep env (candHeads (w.snakes.map commitDir)))
      { snakes := w.snakes.map commitDir, obstacles := w.obstacles,
        food := (expiryCheck env w).1, speedMs := w.speedMs,
        resetIds := headToHeadResets (candHeads (w.snakes.map commitDir)),
        spawnIdx := (expiryCheck env w).2,
        cellIdx := 0 }).resetIds.foldl (resetSnakeSt env) _).resetIds
  rw [foldl_resetSnakeSt_resetIds]
  exact foldl_snakeStep_selfHit env _ s.id (commitDir s)
    (by rw [hhead]; exact hhit) _ _ (Or.inr ⟨hmemids, hfind⟩)

/-! ### Concrete scenario worlds -/

/-- Food placed away from all scenario snakes, also used by the oracles. -/
def dummyFood : Food := ⟨0, 380, "normal", "red", 1, none⟩

/-- Concrete oracle: constant spawn results and free cells. -/
def env0 : Env := ⟨0, fun _ => dummyFood, fun _ => ⟨0, 0⟩⟩

/-- First snake (iteration order): head (100,100), tail (120,100), moving
left. -/
def snakeA : Snake :=
  ⟨"a", "#22c55e", [⟨100, 100⟩, ⟨120, 100⟩], "LEFT", "LEFT", 0, 0, 0, none⟩

/-- Second snake: head (140,100); its candidate head (120,100) is snakeA's
pre-move tail cell. -/
def snakeB : Snake :=
  ⟨"b", "#3b82f6", [⟨140, 100⟩, ⟨160, 100⟩], "LEFT", "LEFT", 0, 0, 0, none⟩

def wAB : World := ⟨[snakeA, snakeB], [], some dummyFood, 100⟩

/-- A snake about to run into its own pre-move body. -/
def snakeSelf : Snake :=
  ⟨"w1", "#eab308", [⟨40, 40⟩, ⟨60, 40⟩, ⟨60, 60⟩, ⟨40, 60⟩], "DOWN", "DOWN",
   0, 0, 0, none⟩

def wSelf : World := ⟨[snakeSelf], [], some dummyFood, 100⟩

/-- A snake with a garbage string queued as its pending direction. -/
def snakeGarbage : Snake :=
  ⟨"g1", "#ef4444", [⟨40, 40⟩, ⟨60, 40⟩], "RIGHT", "banana", 0, 0, 0, none⟩

def wGarbage : World := ⟨[snakeGarbage], [], some dummyFood, 100⟩

/-- C1 counterexample: snakeB's candidate head lies in snakeA's pre-move
body (its tail cell), so under the claim snakeB would be marked for reset;
but snakeA, earlier in iteration order, has already moved and vacated that
cell when snakeB is checked, so nobody is reset and snakeB's move is
committed. -/
theorem C1_counterexample :
    collideArray
      (nextHead (commitDir snakeB).body.headI (commitDir snakeB).dir)
      snakeA.body = true ∧
    (tickAux env0 wAB).resetIds = [] ∧
    (tick env0 wAB).snakes.map Snake.body =
      [[⟨80, 100⟩, ⟨100, 100⟩], [⟨120, 100⟩, ⟨140, 100⟩]] :=
  ⟨by decide, by decide, by decide⟩

/-- C1 amended: the per-snake check runs against each snake's body as it
stands when that snake is processed — its own body is still pre-move (full,
including the tail segment to be popped this tick), while snakes earlier in
iteration order have already moved.  In particular a candidate head inside
the snake's own pre-move body always marks it for reset. -/
theorem C1_amended_selfHit (env : Env) (w : World) (s : Snake)
    (hnd : (w.snakes.map Snake.id).Nodup) (hs : s ∈ w.snakes)
    (hhit : collideArray (nextHead s.body.headI (commitDir s).dir) s.body
      = true) :
    s.id ∈ (tickAux env w).resetIds := by
  apply selfHit_mem_resetIds env w s hnd hs
  rw [commitDir_body]
  exact hhit

/-- Witness for C1 (amended) on a concrete snake turning into its own
body. -/
theorem C1_amended_selfHit_witness : "w1" ∈ (tickAux env0 wSelf).resetIds :=
  C1_amended_selfHit env0 wSelf snakeSelf (by decide) (by decide) (by decide)

/-! ### C10: an arbitrary string as a move direction is fatal -/

lemma isOpposite_garbage {a b : String} (h1 : b ≠ "UP") (h2 : b ≠ "DOWN")
    (h3 : b ≠ "LEFT") (h4 : b ≠ "RIGHT") : isOpposite a b = false := by
  unfold isOpposite
  rw [beq_eq_false_iff_ne.mpr h2, beq_eq_false_iff_ne.mpr h1,
    beq_eq_false_iff_ne.mpr h4, beq_eq_false_iff_ne.mpr h3]
  simp

lemma nextHead_garbage {head : Pos} {d : String} (h1 : d ≠ "UP")
    (h2 : d ≠ "DOWN") (h3 : d ≠ "LEFT") (h4 : d ≠ "RIGHT") :
    nextHead head d = head := by
  unfold nextHead
  rw [beq_eq_false_iff_ne.mpr h3, beq_eq_false_iff_ne.mpr h4,
    beq_eq_false_iff_ne.mpr h1, beq_eq_false_iff_ne.mpr h2]
  simp

lemma headI_mem {l : List Pos} (h : l ≠ []) : l.headI ∈ l := by
  cases l with
  | nil => exact absurd rfl h
  | cons x xs => exact List.mem_cons_self x xs

lemma collideArray_of_mem {p : Pos} {l : List Pos} (h : p ∈ l) :
    collideArray p l = true :=
  List.any_eq_true.2 ⟨p, h, (posEq_iff p p).2 rfl⟩

/-- C10: a `move` event carrying a string that is none of the four
directions is stored unvalidated; at the next tick it is committed (it is
the opposite of no heading), the head projection then leaves the candidate
head on the current head cell, and the self-body check makes this fatal:
the snake is marked for reset that tick. -/
theorem C10_garbage_direction (env : Env) (w : World) (s : Snake)
    (hnd : (w.snakes.map Snake.id).Nodup) (hs : s ∈ w.snakes)
    (hne : s.body ≠ [])
    (h1 : s.pendingDir ≠ "UP") (h2 : s.pendingDir ≠ "DOWN")
    (h3 : s.pendingDir ≠ "LEFT") (h4 : s.pendingDir ≠ "RIGHT") :
    (commitDir s).dir = s.pendingDir ∧
    nextHead (commitDir s).body.headI (commitDir s).dir = s.body.headI ∧
    s.id ∈ (tickAux env w).resetIds := by
  have hcd : (commitDir s).dir = s.pendingDir := by
    unfold commitDir
    rw [if_neg (by simp [isOpposite_garbage h1 h2 h3 h4])]
  have hnx : nextHead (commitDir s).body.headI (commitDir s).dir =
      s.body.headI := by
    rw [commitDir_body, hcd]
    exact nextHead_garbage h1 h2 h3 h4
  refine ⟨hcd, hnx, ?_⟩
  apply selfHit_mem_resetIds env w s hnd hs
  rw [commitDir_body, hcd, nextHead_garbage h1 h2 h3 h4]
  exact collideArray_of_mem (headI_mem hne)

/-- Witness for C10 on a concrete snake sent the direction "banana". -/
theorem C10_garbage_direction_witness :
    "g1" ∈ (tickAux env0 wGarbage).resetIds :=
  (C10_garbage_direction env0 wGarbage snakeGarbage (by decide) (by decide)
    (by decide) (by decide) (by decide) (by decide) (by decide)).2.2

/-- Witness for C4 on three concrete candidate heads, two sharing a
cell. -/
theorem C4_head_to_head_witness :
    "a" ∈ headToHeadResets [("a", ⟨0, 0⟩), ("b", ⟨0, 0⟩), ("c", ⟨20, 0⟩)] :=
  ((C4_head_to_head [("a", ⟨0, 0⟩), ("b", ⟨0, 0⟩), ("c", ⟨20, 0⟩)]
      (by decide) "a").1).2
    ⟨⟨0, 0⟩, by decide, "b", by decide, by decide⟩

/-- A snake of length 2 with score 1 about to eat poison. -/
def snakeP : Snake :=
  ⟨"p1", "#22c55e", [⟨40, 40⟩, ⟨20, 40⟩], "RIGHT", "RIGHT", 1, 0, 0, none⟩

def foodP : Food := ⟨60, 40, "poison", "purple", -2, none⟩

def wPoison : World := ⟨[snakeP], [], some foodP, 100⟩

/-- Witness for C2 on the poison scenario world. -/
theorem C2_body_length_witness :
    ((tick env0 wPoison).snakes.all
      fun s => decide (1 ≤ s.body.length)) = true := by
  have h := (C2_body_length env0 wPoison (by decide)).1
  rw [List.all_eq_true]
  exact fun s hs => decide_eq_true (h s hs)

/-! ### C6: evolution of the shared tick interval -/

lemma milestoneUpd_speed (s : Snake) (obs : List Pos) (sp : Int) (p : Pos)
    (h : MIN_SPEED_MS ≤ sp) :
    MIN_SPEED_MS ≤ (milestoneUpd s obs sp p).2.2 ∧
    (milestoneUpd s obs sp p).2.2 ≤ sp := by
  unfold milestoneUpd
  split
  · dsimp only
    constructor
    · exact le_max_left _ _
    · apply max_le h
      omega
  · exact ⟨h, le_refl sp⟩

lemma snakeStep_speed (env : Env) (heads : List (String × Pos))
    (st : TickSt) (id : String) (h : MIN_SPEED_MS ≤ st.speedMs) :
    MIN_SPEED_MS ≤ (snakeStep env heads st id).speedMs ∧
    (snakeStep env heads st id).speedMs ≤ st.speedMs := by
  unfold snakeStep
  by_cases hc : st.resetIds.contains id = true
  · rw [if_pos hc]; exact ⟨h, le_refl _⟩
  · rw [if_neg hc]
    cases hfind : findSnake st.snakes id with
    | none => exact ⟨h, le_refl _⟩
    | some s =>
      dsimp only
      split_ifs
      · exact ⟨h, le_refl _⟩
      · exact ⟨h, le_refl _⟩
      · exact ⟨h, le_refl _⟩
      · exact milestoneUpd_speed _ _ _ _ h

lemma foldl_snakeStep_speed (env : Env) (heads : List (String × Pos))
    (ids : List String) :
    ∀ st : TickSt, MIN_SPEED_MS ≤ st.speedMs →
      MIN_SPEED_MS ≤ ((ids.foldl (snakeStep env heads) st).speedMs) ∧
      ((ids.foldl (snakeStep env heads) st).speedMs) ≤ st.speedMs := by
  induction ids with
  | nil => exact fun st h => ⟨h, le_refl _⟩
  | cons i is ih =>
    intro st h
    obtain ⟨ha, hb⟩ := snakeStep_speed env heads st i h
    obtain ⟨hc, hd⟩ := ih _ ha
    exact ⟨hc, le_trans hd hb⟩

lemma foldl_resetSnakeSt_speed (env : Env) (ids : List String) :
    ∀ st : TickSt,
      (ids.foldl (resetSnakeSt env) st).speedMs = st.speedMs := by
  induction ids with
  | nil => exact fun st => rfl
  | cons i is ih => exact fun st => ih (resetSnakeSt env st i)

lemma tick_speed (env : Env) (w : World) (h : MIN_SPEED_MS ≤ w.speedMs) :
    MIN_SPEED_MS ≤ (tick env w).speedMs ∧
    (tick env w).speedMs ≤ w.speedMs := by
  have e : (tick env w).speedMs =
      ((((w.snakes.map commitDir).map (fun s => s.id)).foldl
        (snakeStep env (candHeads (w.snakes.map commitDir)))
        { snakes := w.snakes.map commitDir, obstacles := w.obstacles,
          food := (expiryCheck env w).1, speedMs := w.speedMs,
          resetIds := headToHeadResets (candHeads (w.snakes.map commitDir)),
          spawnIdx := (expiryCheck env w).2, cellIdx := 0 }).speedMs) :=
    foldl_resetSnakeSt_speed env _ _
  rw [e]
  exact foldl_snakeStep_speed env _ _ _ h

lemma connectHandler_speed (id : String) (f : Food) (w : World) :
    (connectHandler id f w).speedMs = w.speedMs := by
  unfold connectHandler
  cases hwf : (createSnake id w).food with
  | none => rfl
  | some g => rfl

lemma disconnectHandler_speed (id : String) (w : World) :
    (disconnectHandler id w).speedMs = w.speedMs ∨
      ((disconnectHandler id w).snakes = [] ∧
        (disconnectHandler id w).speedMs = START_SPEED_MS) := by
  unfold disconnectHandler
  split_ifs with hc
  · right
    refine ⟨?_, rfl⟩
    exact List.length_eq_zero.1 (by simpa using hc)
  · left; rfl

/-- A snake one point below its first milestone, food directly ahead. -/
def snakeMil : Snake :=
  ⟨"m1", "#a855f7", [⟨40, 40⟩], "RIGHT", "RIGHT", 4, 0, 0, none⟩

def foodMil : Food := ⟨60, 40, "normal", "red", 1, none⟩

def wMil : World := ⟨[snakeMil], [], some foodMil, 100⟩

/-- C6 counterexample: after the milestone tick the shared interval is
90 ms; the disconnect of the last player then restores it to 100 ms — a
strict increase caused by a non-milestone event. -/
theorem C6_counterexample :
    (applyOp (Op.tickOp env0) wMil).speedMs = 90 ∧
    (applyOp (Op.disconn "m1") (applyOp (Op.tickOp env0) wMil)).speedMs
      = 100 ∧
    (applyOp (Op.tickOp env0) wMil).speedMs <
      (applyOp (Op.disconn "m1") (applyOp (Op.tickOp env0) wMil)).speedMs :=
  ⟨by decide, by decide, by decide⟩

/-- C6 amended: the shared tick interval always stays within
`[MIN_SPEED_MS, START_SPEED_MS]`; a tick can only lower it, and the
connection, move and rename handlers never change it; the disconnect
handler either leaves it unchanged or — exactly when it empties the
registry — restores it to the starting value (which can increase it). -/
theorem C6_amended_speed (w : World) (op : Op)
    (hlo : MIN_SPEED_MS ≤ w.speedMs) (hhi : w.speedMs ≤ START_SPEED_MS) :
    (MIN_SPEED_MS ≤ (applyOp op w).speedMs ∧
      (applyOp op w).speedMs ≤ START_SPEED_MS) ∧
    (∀ env, (tick env w).speedMs ≤ w.speedMs) ∧
    (∀ id f, (connectHandler id f w).speedMs = w.speedMs) ∧
    (∀ id d, (moveHandler id d w).speedMs = w.speedMs) ∧
    (∀ id nm, (renamePlayer id nm w).speedMs = w.speedMs) ∧
    (∀ id, (disconnectHandler id w).speedMs = w.speedMs ∨
      ((disconnectHandler id w).snakes = [] ∧
        (disconnectHandler id w).speedMs = START_SPEED_MS)) := by
  refine ⟨?_, fun env => (tick_speed env w hlo).2,
    fun id f => connectHandler_speed id f w, fun id d => rfl,
    fun id nm => rfl, fun id => disconnectHandler_speed id w⟩
  cases op with
  | tickOp env =>
    obtain ⟨ha, hb⟩ := tick_speed env w hlo
    exact ⟨ha, le_trans hb hhi⟩
  | connect id f =>
    rw [show (applyOp (Op.connect id f) w).speedMs = w.speedMs from
      connectHandler_speed id f w]
    exact ⟨hlo, hhi⟩
  | disconn id =>
    rcases disconnectHandler_speed id w with hd | ⟨_, hd⟩
    · rw [show (applyOp (Op.disconn id) w).speedMs = _ from hd]
      exact ⟨hlo, hhi⟩
    · rw [show (applyOp (Op.disconn id) w).speedMs = _ from hd]
      exact ⟨by decide, le_refl _⟩
  | moveOp id d => exact ⟨hlo, hhi⟩
  | rename id nm => exact ⟨hlo, hhi⟩

def wEmpty : World := ⟨[], [], none, 100⟩

/-- Witness for C6 (amended) at a concrete world and operation. -/
theorem C6_amended_speed_witness :
    MIN_SPEED_MS ≤ (applyOp (Op.rename "x" "nm") wEmpty).speedMs ∧
    (applyOp (Op.rename "x" "nm") wEmpty).speedMs ≤ START_SPEED_MS :=
  (C6_amended_speed wEmpty (Op.rename "x" "nm") (by decide) (by decide)).1

/-! ### C9: food exists whenever a snake exists -/

lemma snakeStep_food_isSome (env : Env) (heads : List (String × Pos))
    (st : TickSt) (id : String) :
    (snakeStep env heads st id).food.isSome = st.food.isSome := by
  unfold snakeStep
  by_cases hc : st.resetIds.contains id = true
  · rw [if_pos hc]
  · rw [if_neg hc]
    cases hfind : findSnake st.snakes id with
    | none => rfl
    | some s =>
      dsimp only
      split_ifs
      · rfl
      · rfl
      · rfl
      · show ((eatStep env st { s with body := getHead heads id :: s.body }
            (getHead heads id)).2.1).isSome = st.food.isSome
        rcases eatStep_spec env st
          { s with body := getHead heads id :: s.body } (getHead heads id)
          with ⟨f, hfd, heq⟩ | heq
        · rw [heq, hfd]
          rfl
        · rw [heq]

lemma snakeStep_snakes_length (env : Env) (heads : List (String × Pos))
    (st : TickSt) (id : String) :
    (snakeStep env heads st id).snakes.length = st.snakes.length := by
  unfold snakeStep
  by_cases hc : st.resetIds.contains id = true
  · rw [if_pos hc]
  · rw [if_neg hc]
    cases hfind : findSnake st.snakes id with
    | none => rfl
    | some s =>
      dsimp only
      split_ifs
      · rfl
      · rfl
      · rfl
      · show (updateSnake id _ st.snakes).length = st.snakes.length
        simp [updateSnake]

lemma foldl_snakeStep_food_isSome (env : Env)
    (heads : List (String × Pos)) (ids : List String) :
    ∀ st : TickSt,
      ((ids.foldl (snakeStep env heads) st).food).isSome = st.food.isSome := by
  induction ids with
  | nil => exact fun st => rfl
  | cons i is ih =>
    intro st
    rw [List.foldl_cons, ih, snakeStep_food_isSome]

lemma foldl_snakeStep_length (env : Env) (heads : List (String × Pos))
    (ids : List String) :
    ∀ st : TickSt,
      ((ids.foldl (snakeStep env heads) st).snakes).length =
        st.snakes.length := by
  induction ids with
  | nil => exact fun st => rfl
  | cons i is ih =>
    intro st
    rw [List.foldl_cons, ih, snakeStep_snakes_length]

lemma foldl_resetSnakeSt_food (env : Env) (ids : List String) :
    ∀ st : TickSt, (ids.foldl (resetSnakeSt env) st).food = st.food := by
  induction ids with
  | nil => exact fun st => rfl
  | cons i is ih => exact fun st => ih (resetSnakeSt env st i)

lemma foldl_resetSnakeSt_length (env : Env) (ids : List String) :
    ∀ st : TickSt,
      ((ids.foldl (resetSnakeSt env) st).snakes).length =
        st.snakes.length := by
  induction ids with
  | nil => exact fun st => rfl
  | cons i is ih =>
    intro st
    rw [List.foldl_cons, ih]
    show (updateSnake i _ st.snakes).length = st.snakes.length
    simp [updateSnake]

lemma expiryCheck_isSome (env : Env) (w : World) :
    (expiryCheck env w).1.isSome = w.food.isSome := by
  unfold expiryCheck
  cases w.food with
  | none => rfl
  | some f =>
    dsimp only
    split_ifs <;> rfl

lemma tick_food_isSome (env : Env) (w : World) :
    (tick env w).food.isSome = w.food.isSome := by
  have e : (tick env w).food =
      ((((w.snakes.map commitDir).map (fun s => s.id)).foldl
        (snakeStep env (candHeads (w.snakes.map commitDir)))
        { snakes := w.snakes.map commitDir, obstacles := w.obstacles,
          food := (expiryCheck env w).1, speedMs := w.speedMs,
          resetIds := headToHeadResets (candHeads (w.snakes.map commitDir)),
          spawnIdx := (expiryCheck env w).2, cellIdx := 0 }).food) :=
    foldl_resetSnakeSt_food env _ _
  rw [e, foldl_snakeStep_food_isSome]
  exact expiryCheck_isSome env w

lemma tick_snakes_length (env : Env) (w : World) :
    (tick env w).snakes.length = w.snakes.length := by
  have e : (tick env w).snakes.length =
      ((((w.snakes.map commitDir).map (fun s => s.id)).foldl
        (snakeStep env (candHeads (w.snakes.map commitDir)))
        { snakes := w.snakes.map commitDir, obstacles := w.obstacles,
          food := (expiryCheck env w).1, speedMs := w.speedMs,
          resetIds := headToHeadResets (candHeads (w.snakes.map commitDir)),
          spawnIdx := (expiryCheck env w).2,
          cellIdx := 0 }).snakes).length :=
    foldl_resetSnakeSt_length env _ _
  rw [e, foldl_snakeStep_length]
  show ((w.snakes.map commitDir)).length = w.snakes.length
  simp

/-- C9: whenever at least one snake exists the food is non-null, and this
is preserved by every operation; the food becomes null only through the
disconnect that empties the snake registry. -/
theorem C9_food_invariant (w : World) (op : Op)
    (hinv : w.snakes ≠ [] → w.food ≠ none) :
    ((applyOp op w).snakes ≠ [] → (applyOp op w).food ≠ none) ∧
    (w.food ≠ none → (applyOp op w).food = none →
      ∃ id, op = Op.disconn id ∧ (applyOp op w).snakes = []) := by
  cases op with
  | tickOp env =>
    simp only [applyOp]
    have hf := tick_food_isSome env w
    have hl := tick_snakes_length env w
    constructor
    · intro hsn
      have hw : w.snakes ≠ [] := by
        intro hnil
        apply hsn
        apply List.length_eq_zero.1
        rw [hl, hnil]
        rfl
      have h2 : w.food.isSome = true :=
        Option.isSome_iff_ne_none.2 (hinv hw)
      exact Option.isSome_iff_ne_none.1 (by rw [hf]; exact h2)
    · intro hfw hnone
      exact absurd hnone (Option.isSome_iff_ne_none.1
        (by rw [hf]; exact Option.isSome_iff_ne_none.2 hfw))
  | connect id f =>
    have hfood : (connectHandler id f w).food ≠ none := by
      unfold connectHandler
      cases hwf : (createSnake id w).food with
      | none => simp
      | some g => simp [hwf]
    exact ⟨fun _ => hfood, fun _ hnone => absurd hnone hfood⟩
  | disconn id =>
    simp only [applyOp]
    unfold disconnectHandler
    split_ifs with hc
    · constructor
      · intro hsn
        exact absurd (List.length_eq_zero.1 (beq_iff_eq.mp hc)) hsn
      · intro _ _
        exact ⟨id, rfl, List.length_eq_zero.1 (beq_iff_eq.mp hc)⟩
    · constructor
      · intro _
        have hw : w.snakes ≠ [] := by
          intro hnil
          rw [hnil] at hc
          exact hc rfl
        exact hinv hw
      · intro hfw hnone
        exact absurd hnone hfw
  | moveOp id d =>
    constructor
    · intro hsn
      have hw : w.snakes ≠ [] := by
        intro hnil
        apply hsn
        show updateSnake id _ w.snakes = []
        rw [hnil]
        rfl
      exact hinv hw
    · intro hfw hnone
      exact absurd hnone hfw
  | rename id nm =>
    constructor
    · intro hsn
      have hw : w.snakes ≠ [] := by
        intro hnil
        apply hsn
        show updateSnake id _ w.snakes = []
        rw [hnil]
        rfl
      exact hinv hw
    · intro hfw hnone
      exact absurd hnone hfw

def wNine : World :=
  ⟨[⟨"c9", "#14b8a6", [⟨200, 200⟩], "RIGHT", "RIGHT", 0, 0, 0, none⟩], [],
   some dummyFood, 100⟩

/-- Witness for C9 at a concrete world and a move operation. -/
theorem C9_food_invariant_witness :
    (applyOp (Op.moveOp "c9" "UP") wNine).food ≠ none :=
  (C9_food_invariant wNine (Op.moveOp "c9" "UP") (fun _ => by decide)).1
    (by decide)

end SnakeGame
